import Mathlib

/-!
Shallow embedding of the PowerQuadrantDemo model layer
(`src/power_quadrant_demo/model.py` and the dictionary-based power-factor
lookup of `src/power_quadrant_demo/state_info.py`).

Python floats are modelled as real numbers; `cmath` complex values as `ℂ`.
Python float division raises `ZeroDivisionError` exactly when the divisor
is zero, so the fallible `refresh` is embedded with `Except`.
-/

noncomputable section

namespace PQD

/-- The sign-convention key string EEI. -/
def EEI : String := "EEI"

/-- The sign-convention key string IEC. -/
def IEC : String := "IEC"

/-- `SQRT_TWO = 2 ** 0.5` from model.py. -/
def SQRT_TWO : ℝ := Real.sqrt 2

/-- `create_phasor(amplitude, angle) = amplitude * cmath.rect(1., angle)`:
`cmath.rect 1 θ` is the unit complex number `exp (θ i)`. -/
def create_phasor (amplitude angle : ℝ) : ℂ :=
  (amplitude : ℂ) * Complex.exp ((angle : ℂ) * Complex.I)

/-- `phi_to_pf(phi, sign_convention)` from model.py: start from `cos phi`
and multiply by `-sign(sin phi)` only when the convention string equals EEI;
any other string leaves `cos phi` untouched. -/
def phi_to_pf (phi : ℝ) (sign_convention : String) : ℝ :=
  let pf := Real.cos phi
  if sign_convention = EEI then pf * (-(Real.sin phi).sign) else pf

/-- `PowerQuadrantState.pf_sign_conversions` from state_info.py: a dictionary
with exactly the keys EEI and IEC; looking up any other key raises `KeyError`,
embedded as `none`. -/
def pf_sign_conversions (key : String) : Option (ℝ → ℝ) :=
  if key = EEI then some (fun phi => Real.cos phi * (-(Real.sin phi).sign))
  else if key = IEC then some (fun phi => Real.cos phi)
  else none

/-- `PowerQuadrantState.power_factor` from state_info.py:
`self.pf_sign_conversions[self.pf_sign_convention](self.phi)`;
`none` models the `KeyError` of a failed dictionary lookup. -/
def PowerQuadrantState.power_factor (pf_sign_convention : String) (phi : ℝ) :
    Option ℝ :=
  (pf_sign_conversions pf_sign_convention).map (fun f => f phi)

/-- The fields of `PowerStateVariables` from model.py (each a tk variable
there; the tk boxing is irrelevant to the numeric behaviour). -/
structure PowerStateVariables where
  pf_sign_convention : String
  apparent_power : ℝ
  power_angle : ℝ
  voltage_rms : ℝ
  voltage_angle : ℝ
  current_rms : ℝ
  current_angle : ℝ
  impedance : ℝ
  cos_phi : ℝ
  power_factor : ℝ
  active_power : ℝ
  reactive_power : ℝ

/-- The initial values assigned in `PowerStateVariables.__init__`. -/
def initStateVariables : PowerStateVariables :=
  { pf_sign_convention := EEI
    apparent_power := 1, power_angle := 0
    voltage_rms := 1, voltage_angle := 0
    current_rms := 1, current_angle := 0
    impedance := 1
    cos_phi := 1, power_factor := 1
    active_power := 1, reactive_power := 0 }

/-- `voltage_phasor` property getter. -/
def PowerStateVariables.voltage_phasor (s : PowerStateVariables) : ℂ :=
  create_phasor s.voltage_rms s.voltage_angle

/-- `current_phasor` property getter. -/
def PowerStateVariables.current_phasor (s : PowerStateVariables) : ℂ :=
  create_phasor s.current_rms s.current_angle

/-- `power_phasor` property setter: stores `abs phasor` into apparent_power
and `np.angle phasor` (the principal argument) into power_angle. -/
def PowerStateVariables.set_power_phasor (s : PowerStateVariables)
    (phasor : ℂ) : PowerStateVariables :=
  { s with apparent_power := Complex.abs phasor
           power_angle := Complex.arg phasor }

/-- The error value modelling Python's `ZeroDivisionError`. -/
def zeroDivisionError : String := "ZeroDivisionError"

/-- The six dependent-field assignments performed by
`PowerStateVariables.refresh` when the division succeeds. -/
def refreshedSV (s : PowerStateVariables) : PowerStateVariables :=
  { s with
    current_rms := s.apparent_power / s.voltage_rms
    current_angle := s.voltage_angle - s.power_angle
    cos_phi := Real.cos s.power_angle
    power_factor := phi_to_pf s.power_angle s.pf_sign_convention
    active_power := s.apparent_power * Real.cos s.power_angle
    reactive_power := s.apparent_power * Real.sin s.power_angle }

/-- `PowerStateVariables.refresh` from model.py. Its first statement divides
`apparent_power` by `voltage_rms`; Python raises `ZeroDivisionError` there
when `voltage_rms` is zero, before any field has been assigned, so the
embedding returns an error with the state untouched in that case. Otherwise
all six dependent fields are updated from the independent ones. -/
def PowerStateVariables.refresh (s : PowerStateVariables) :
    Except String PowerStateVariables :=
  if s.voltage_rms = 0 then Except.error zeroDivisionError
  else Except.ok (refreshedSV s)

/-- One row of the waveform table built by `ModelledWaveforms`. -/
structure WaveformRow where
  time : ℝ
  phase : ℂ
  voltage : ℝ
  current : ℝ
  active_current : ℝ
  reactive_current : ℝ
  summed_current : ℝ
  active_power : ℝ
  reactive_power : ℝ
  apparent_power : ℝ

/-- `MIN_TIME` from `ModelledWaveforms`. -/
def MIN_TIME : ℝ := -10

/-- `MAX_TIME` from `ModelledWaveforms`. -/
def MAX_TIME : ℝ := 30

/-- `PERIOD` from `ModelledWaveforms`. -/
def PERIOD : ℝ := 20

/-- `OMEGA = 2 * np.pi / PERIOD`. -/
def OMEGA : ℝ := 2 * Real.pi / PERIOD

/-- Sample `i` of `np.linspace(MIN_TIME, MAX_TIME, 100)`:
evenly spaced with step `(MAX_TIME - MIN_TIME) / 99`. -/
def sampleTime (i : ℕ) : ℝ := MIN_TIME + (MAX_TIME - MIN_TIME) * i / 99

/-- The precomputed phase column: `exp (1j * OMEGA * time)`. -/
def samplePhase (i : ℕ) : ℂ :=
  Complex.exp (Complex.I * (OMEGA : ℂ) * (sampleTime i : ℂ))

/-- One row of `ModelledWaveforms.refresh`: the phasors are scaled by
`SQRT_TWO` (rms to peak), then the voltage/current columns are real parts of
phasor times phase, the active/reactive currents use the real and imaginary
parts of the current phasor, and the power columns are pointwise products. -/
def waveRow (rms_voltage_phasor rms_current_phasor : ℂ) (i : ℕ) :
    WaveformRow :=
  let voltage_phasor := (SQRT_TWO : ℂ) * rms_voltage_phasor
  let current_phasor := (SQRT_TWO : ℂ) * rms_current_phasor
  let ph := samplePhase i
  let voltage := (voltage_phasor * ph).re
  let current := (current_phasor * ph).re
  let active_current := ((current_phasor.re : ℂ) * ph).re
  let reactive_current := ((current_phasor.im : ℂ) * ph * Complex.I).re
  { time := sampleTime i
    phase := ph
    voltage := voltage
    current := current
    active_current := active_current
    reactive_current := reactive_current
    summed_current := active_current + reactive_current
    active_power := voltage * active_current
    reactive_power := voltage * reactive_current
    apparent_power := voltage * current }

/-- The full 100-row waveform table regenerated by
`ModelledWaveforms.refresh`. -/
def waveTable (rms_voltage_phasor rms_current_phasor : ℂ) :
    List WaveformRow :=
  (List.range 100).map (waveRow rms_voltage_phasor rms_current_phasor)

/-- The `Model` class from model.py: the state-count tk variable, the
`PowerStateVariables` instance and the waveform table held by its
`ModelledWaveforms` instance. -/
structure Model where
  state_count : ℕ
  sv : PowerStateVariables
  wf : List WaveformRow

/-- `Model.refresh` from model.py: refresh the state variables, regenerate
the waveform table from the refreshed phasors, then set
`state_count := (state_count + 1) % 0xff` (0xff = 255). A
`ZeroDivisionError` raised inside `PowerStateVariables.refresh` propagates
before any assignment, so the model is unchanged on error. -/
def Model.refresh (m : Model) : Except String Model :=
  Except.map
    (fun sv =>
      { state_count := (m.state_count + 1) % 0xff
        sv := sv
        wf := waveTable sv.voltage_phasor sv.current_phasor })
    m.sv.refresh

/-- `np.arctan2 y x`, embedded as the principal argument of the complex
number with real part `x` and imaginary part `y` (both have range
(-pi, pi] on the reals). -/
def atan2 (y x : ℝ) : ℝ := Complex.arg (Complex.mk x y)

/-- `Model.process_power_phasor_change(x, y)`: builds the clamped phasor
`create_phasor (min 1 (sqrt (x^2 + y^2))) (atan2 y x)`, assigns it through
the `power_phasor` setter, and the tk write trace on `power_angle` then
runs `Model.refresh`. -/
def Model.process_power_phasor_change (m : Model) (x y : ℝ) :
    Except String Model :=
  let new_phasor := create_phasor (min 1 (Real.sqrt (x ^ 2 + y ^ 2)))
      (atan2 y x)
  Model.refresh { m with sv := m.sv.set_power_phasor new_phasor }

/-- A concrete model whose state count sits just below the wrap point. -/
def model254 : Model :=
  { state_count := 254, sv := initStateVariables, wf := [] }

/-- A concrete model at the initial state with state count 0 and the
waveform table built from the initial phasors, as `Model.__init__` does. -/
def initModel : Model :=
  { state_count := 0
    sv := initStateVariables
    wf := waveTable initStateVariables.voltage_phasor
            initStateVariables.current_phasor }

/-- A concrete model whose voltage rms is zero. -/
def modelV0 : Model :=
  { state_count := 0
    sv := { initStateVariables with voltage_rms := 0 }
    wf := [] }

/-- An arbitrary string that is not a recognised sign-convention key. -/
def XYZ : String := "XYZ"

/-- A heap of Python objects holding waveform tables: a bump allocator and
a store mapping references to tables. Models that `self._waveforms.waveforms`
is an object shared by reference, with `.copy()` allocating a new object. -/
structure PHeap where
  next : ℕ
  store : ℕ → List WaveformRow

/-- Dereference a table reference. -/
def PHeap.get (h : PHeap) (r : ℕ) : List WaveformRow := h.store r

/-- Mutate the table object behind reference `r` in place. -/
def PHeap.set (h : PHeap) (r : ℕ) (t : List WaveformRow) : PHeap :=
  { h with store := fun q => if q = r then t else h.store q }

/-- Allocate a fresh object holding table `t`, returning the new heap and
the fresh reference. -/
def PHeap.alloc (h : PHeap) (t : List WaveformRow) : PHeap × ℕ :=
  ({ next := h.next + 1
     store := fun q => if q = h.next then t else h.store q }, h.next)

/-- The `Model` with its waveform table held by reference on the heap. -/
structure ModelH where
  state_count : ℕ
  sv : PowerStateVariables
  wfRef : ℕ

/-- The `Model.waveforms` property getter:
`return self._waveforms.waveforms.copy()` — reads the table behind the
model's reference, allocates a fresh copy of it, and hands the caller a
reference to the copy; the model is returned unchanged because the getter
assigns nothing. -/
def ModelH.waveforms (m : ModelH) (h : PHeap) : ModelH × PHeap × ℕ :=
  let (h2, r) := h.alloc (h.get m.wfRef)
  (m, h2, r)

/-- A concrete one-object heap. -/
def heap1 : PHeap := { next := 1, store := fun _ => [] }

/-- A concrete heap-based model whose table lives at reference 0. -/
def modelH0 : ModelH :=
  { state_count := 0, sv := initStateVariables, wfRef := 0 }

end PQD

namespace PQD

/-- The successful branch of `PowerStateVariables.refresh`. -/
theorem refresh_eq_of_ne (s : PowerStateVariables) (h : s.voltage_rms ≠ 0) :
    s.refresh = Except.ok (refreshedSV s) := by
  rw [PowerStateVariables.refresh, if_neg h]

/-- Inversion for a successful `PowerStateVariables.refresh`. -/
theorem refresh_ok_elim (s s2 : PowerStateVariables)
    (h : s.refresh = Except.ok s2) :
    s.voltage_rms ≠ 0 ∧ s2 = refreshedSV s := by
  by_cases hv : s.voltage_rms = 0
  · rw [PowerStateVariables.refresh, if_pos hv] at h
    exact absurd h (by simp)
  · rw [refresh_eq_of_ne s hv] at h
    injection h with h2
    exact ⟨hv, h2.symm⟩

/-- The successful branch of `Model.refresh`. -/
theorem model_refresh_eq_of_ne (m : Model) (h : m.sv.voltage_rms ≠ 0) :
    m.refresh = Except.ok
      { state_count := (m.state_count + 1) % 0xff
        sv := refreshedSV m.sv
        wf := waveTable (refreshedSV m.sv).voltage_phasor
                (refreshedSV m.sv).current_phasor } := by
  rw [Model.refresh, refresh_eq_of_ne m.sv h]
  rfl

/-- Inversion for a successful `Model.refresh`. -/
theorem model_refresh_ok_elim (m m2 : Model) (h : m.refresh = Except.ok m2) :
    m.sv.voltage_rms ≠ 0 ∧
    m2 = { state_count := (m.state_count + 1) % 0xff
           sv := refreshedSV m.sv
           wf := waveTable (refreshedSV m.sv).voltage_phasor
                   (refreshedSV m.sv).current_phasor } := by
  by_cases hv : m.sv.voltage_rms = 0
  · rw [Model.refresh, PowerStateVariables.refresh, if_pos hv] at h
    exact absurd h (by simp [Except.map])
  · rw [model_refresh_eq_of_ne m hv] at h
    injection h with h2
    exact ⟨hv, h2.symm⟩

/-- C3: after every completed recomputation the derived field
`current_angle` equals `voltage_angle - power_angle` (the power angle phi);
`refresh` assigns exactly that difference and leaves `voltage_angle` and
`power_angle` untouched. -/
theorem current_angle_after_refresh (s s2 : PowerStateVariables)
    (h : s.refresh = Except.ok s2) :
    s2.current_angle = s2.voltage_angle - s2.power_angle := by
  obtain ⟨-, rfl⟩ := refresh_ok_elim s s2 h
  rfl

/-- Witness for C3 at the initial state. -/
theorem current_angle_after_refresh_witness :
    ∃ s2, initStateVariables.refresh = Except.ok s2 ∧
      s2.current_angle = s2.voltage_angle - s2.power_angle := by
  have hv : initStateVariables.voltage_rms ≠ 0 := one_ne_zero
  have h := refresh_eq_of_ne initStateVariables hv
  exact ⟨_, h, current_angle_after_refresh initStateVariables _ h⟩

/-- C4: after every completed recomputation, with `voltage_rms` positive and
the power angle in (-pi, pi], the squares of active and reactive power sum
exactly (in real arithmetic) to the square of apparent power. -/
theorem power_triangle_after_refresh (s s2 : PowerStateVariables)
    (hv : 0 < s.voltage_rms)
    (hphi : s.power_angle ∈ Set.Ioc (-Real.pi) Real.pi)
    (h : s.refresh = Except.ok s2) :
    s2.active_power ^ 2 + s2.reactive_power ^ 2 = s2.apparent_power ^ 2 := by
  obtain ⟨-, rfl⟩ := refresh_ok_elim s s2 h
  show (s.apparent_power * Real.cos s.power_angle) ^ 2 +
      (s.apparent_power * Real.sin s.power_angle) ^ 2 = s.apparent_power ^ 2
  linear_combination s.apparent_power ^ 2 * Real.sin_sq_add_cos_sq s.power_angle

/-- Witness for C4 at the initial state. -/
theorem power_triangle_after_refresh_witness :
    ∃ s2, initStateVariables.refresh = Except.ok s2 ∧
      s2.active_power ^ 2 + s2.reactive_power ^ 2 = s2.apparent_power ^ 2 := by
  have h := refresh_eq_of_ne initStateVariables one_ne_zero
  exact ⟨_, h, power_triangle_after_refresh initStateVariables _ one_pos
    ⟨neg_lt_zero.mpr Real.pi_pos, Real.pi_pos.le⟩ h⟩

/-- C2: for every power angle phi, `phi_to_pf` computes
`cos phi * -sign (sin phi)` under EEI and `cos phi` under IEC; in particular
at phi = 0 it returns 1 under IEC and 0 under EEI (because `sign 0 = 0`). -/
theorem phi_to_pf_conventions :
    (∀ phi : ℝ, phi_to_pf phi EEI = Real.cos phi * (-(Real.sin phi).sign) ∧
      phi_to_pf phi IEC = Real.cos phi) ∧
    phi_to_pf 0 IEC = 1 ∧ phi_to_pf 0 EEI = 0 := by
  refine ⟨fun phi => ⟨?_, ?_⟩, ?_, ?_⟩
  · simp [phi_to_pf]
  · simp [phi_to_pf, IEC, EEI]
  · simp [phi_to_pf, IEC, EEI]
  · simp [phi_to_pf, Real.sign_zero]

/-- C5: in every regenerated waveform table, every one of the 100 sample
rows satisfies the active/reactive decomposition identity
`active_current + reactive_current = current` — exactly in real
arithmetic, hence in particular within the 1e-9 tolerance. -/
theorem waveform_decomposition (vp cp : ℂ) (row : WaveformRow)
    (hrow : row ∈ waveTable vp cp) :
    row.active_current + row.reactive_current = row.current := by
  rw [waveTable, List.mem_map] at hrow
  obtain ⟨i, -, rfl⟩ := hrow
  show ((((SQRT_TWO : ℂ) * cp).re : ℂ) * samplePhase i).re +
      ((((SQRT_TWO : ℂ) * cp).im : ℂ) * samplePhase i * Complex.I).re =
      ((SQRT_TWO : ℂ) * cp * samplePhase i).re
  set c := (SQRT_TWO : ℂ) * cp
  set p := samplePhase i
  simp [Complex.mul_re, Complex.mul_im]
  ring

/-- Witness for C5 at the first row of the table for unit phasors. -/
theorem waveform_decomposition_witness :
    ∃ row ∈ waveTable 1 1,
      row.active_current + row.reactive_current = row.current := by
  have hrow : waveRow 1 1 0 ∈ waveTable 1 1 := by
    rw [waveTable, List.mem_map]
    exact ⟨0, by simp, rfl⟩
  exact ⟨_, hrow, waveform_decomposition 1 1 _ hrow⟩

/-- `Complex.abs` of `create_phasor`: the unit factor `exp (θ i)` has
absolute value one, so a non-negative amplitude is returned unchanged. -/
theorem abs_create_phasor (a t : ℝ) (ha : 0 ≤ a) :
    Complex.abs (create_phasor a t) = a := by
  rw [create_phasor, map_mul, Complex.abs_ofReal,
    Complex.abs_exp_ofReal_mul_I, mul_one, abs_of_nonneg ha]

/-- `Complex.arg` of `create_phasor` with positive amplitude and angle in
the principal range. -/
theorem arg_create_phasor (a t : ℝ) (ha : 0 < a)
    (ht : t ∈ Set.Ioc (-Real.pi) Real.pi) :
    Complex.arg (create_phasor a t) = t := by
  rw [create_phasor, Complex.arg_real_mul _ ha, Complex.exp_mul_I]
  exact Complex.arg_cos_add_sin_mul_I ht

/-- If the clamped magnitude `min 1 (sqrt (x^2 + y^2))` is zero then both
coordinates are zero. -/
theorem clamp_eq_zero_imp (x y : ℝ)
    (h : min 1 (Real.sqrt (x ^ 2 + y ^ 2)) = 0) : x = 0 ∧ y = 0 := by
  rcases min_cases (1 : ℝ) (Real.sqrt (x ^ 2 + y ^ 2)) with h1 | h1
  · rw [h1.1] at h
    exact absurd h one_ne_zero
  · rw [h1.1] at h
    have hsum : x ^ 2 + y ^ 2 = 0 := by
      have h2 := (Real.sqrt_eq_zero (by positivity)).mp h
      linarith
    constructor
    · have : x ^ 2 = 0 := by nlinarith [sq_nonneg x, sq_nonneg y]
      exact (pow_eq_zero_iff two_ne_zero).mp this
    · have : y ^ 2 = 0 := by nlinarith [sq_nonneg x, sq_nonneg y]
      exact (pow_eq_zero_iff two_ne_zero).mp this

/-- The argument of the clamped phasor built by
`process_power_phasor_change` is exactly `atan2 y x`, including the
degenerate origin case where both are zero. -/
theorem arg_clamped_phasor (x y : ℝ) :
    Complex.arg
      (create_phasor (min 1 (Real.sqrt (x ^ 2 + y ^ 2))) (atan2 y x)) =
      atan2 y x := by
  rcases (le_min zero_le_one (Real.sqrt_nonneg _) :
      (0 : ℝ) ≤ min 1 (Real.sqrt (x ^ 2 + y ^ 2))).lt_or_eq with hr | hr
  · exact arg_create_phasor _ _ hr (Complex.arg_mem_Ioc _)
  · obtain ⟨hx, hy⟩ := clamp_eq_zero_imp x y hr.symm
    subst hx hy
    rw [← hr]
    have h0 : create_phasor 0 (atan2 0 0) = 0 := by
      rw [create_phasor]
      simp
    rw [h0, Complex.arg_zero, atan2]
    have : (Complex.mk 0 0) = 0 := by
      apply Complex.ext <;> simp
    rw [this, Complex.arg_zero]

/-- C1: with a non-zero voltage rms, `process_power_phasor_change x y`
completes, and reading back the power angle and apparent power yields
`atan2 y x` and `min 1 (sqrt (x^2 + y^2))` — exactly, in the real-number
embedding of the float computation. -/
theorem process_power_phasor_roundtrip (m : Model) (x y : ℝ)
    (hv : m.sv.voltage_rms ≠ 0) :
    ∃ m2, m.process_power_phasor_change x y = Except.ok m2 ∧
      m2.sv.power_angle = atan2 y x ∧
      m2.sv.apparent_power = min 1 (Real.sqrt (x ^ 2 + y ^ 2)) := by
  have hr0 : (0 : ℝ) ≤ min 1 (Real.sqrt (x ^ 2 + y ^ 2)) :=
    le_min zero_le_one (Real.sqrt_nonneg _)
  have hv2 : ({ m with
      sv := m.sv.set_power_phasor
        (create_phasor (min 1 (Real.sqrt (x ^ 2 + y ^ 2))) (atan2 y x)) } :
      Model).sv.voltage_rms ≠ 0 := hv
  have href := model_refresh_eq_of_ne _ hv2
  refine ⟨_, href, ?_, ?_⟩
  · show (m.sv.set_power_phasor
        (create_phasor (min 1 (Real.sqrt (x ^ 2 + y ^ 2)))
          (atan2 y x))).power_angle = atan2 y x
    exact arg_clamped_phasor x y
  · show Complex.abs
      (create_phasor (min 1 (Real.sqrt (x ^ 2 + y ^ 2))) (atan2 y x)) =
      min 1 (Real.sqrt (x ^ 2 + y ^ 2))
    exact abs_create_phasor _ _ hr0

/-- Witness for C1 at the initial model with the drag point (1, 0). -/
theorem process_power_phasor_roundtrip_witness :
    ∃ m2, initModel.process_power_phasor_change 1 0 = Except.ok m2 ∧
      m2.sv.power_angle = atan2 0 1 ∧
      m2.sv.apparent_power = min 1 (Real.sqrt (1 ^ 2 + 0 ^ 2)) :=
  process_power_phasor_roundtrip initModel 1 0 one_ne_zero

/-- C6 counterexample: starting from state count 254, a completed refresh
sets the counter to (254 + 1) % 0xff = 0, not to (254 + 1) % 256 = 255:
`Model.refresh` wraps the counter modulo 255 (0xff), not modulo 256. -/
theorem state_count_mod256_cex :
    ∃ m2, model254.refresh = Except.ok m2 ∧
      m2.state_count ≠ (model254.state_count + 1) % 256 := by
  have h := model_refresh_eq_of_ne model254 one_ne_zero
  refine ⟨_, h, ?_⟩
  show (model254.state_count + 1) % 0xff ≠ (model254.state_count + 1) % 256
  decide

/-- C6 amended: the revision counter increments by one modulo 255 (0xff) —
wrapping to 0 after 254 — exactly once per completed recomputation, after
the state variables and the waveform table have been recomputed. -/
theorem state_count_increment_mod255 (m m2 : Model)
    (h : m.refresh = Except.ok m2) :
    m2.state_count = (m.state_count + 1) % 255 := by
  obtain ⟨-, rfl⟩ := model_refresh_ok_elim m m2 h
  rfl

/-- Witness for the amended C6 at the initial model. -/
theorem state_count_increment_mod255_witness :
    ∃ m2, initModel.refresh = Except.ok m2 ∧
      m2.state_count = (initModel.state_count + 1) % 255 := by
  have h := model_refresh_eq_of_ne initModel one_ne_zero
  exact ⟨_, h, state_count_increment_mod255 initModel _ h⟩

/-- C7: when `voltage_rms` is zero, recomputation fails with the
division-by-zero error (the spec's DomainError) raised by the very first
statement of `PowerStateVariables.refresh`, before any field assignment, so
no model is produced: the previous state stays valid and the revision
counter is not incremented. -/
theorem refresh_zero_voltage_aborts (m : Model) (h : m.sv.voltage_rms = 0) :
    m.refresh = Except.error zeroDivisionError ∧
    ∀ m2, m.refresh ≠ Except.ok m2 := by
  have he : m.refresh = Except.error zeroDivisionError := by
    rw [Model.refresh, PowerStateVariables.refresh, if_pos h]
    rfl
  refine ⟨he, fun m2 hok => ?_⟩
  rw [he] at hok
  exact absurd hok (by simp)

/-- Witness for C7 at a model whose voltage rms is zero. -/
theorem refresh_zero_voltage_aborts_witness :
    modelV0.refresh = Except.error zeroDivisionError ∧
    ∀ m2, modelV0.refresh ≠ Except.ok m2 :=
  refresh_zero_voltage_aborts modelV0 rfl

/-- C8 counterexample: with the unrecognised sign-convention key XYZ, the
power-factor computation of model.py does not fail: `phi_to_pf 0 XYZ`
silently returns 1 (the IEC value), because `phi_to_pf` only tests for the
EEI key and otherwise leaves `cos phi` unchanged. -/
theorem invalid_convention_cex :
    XYZ ≠ EEI ∧ XYZ ≠ IEC ∧ phi_to_pf 0 XYZ = 1 := by
  refine ⟨by decide, by decide, ?_⟩
  simp only [phi_to_pf]
  rw [if_neg (by decide : ¬XYZ = EEI)]
  exact Real.cos_zero

/-- C8 amended: for a name outside the two recognised keys, model.py's
`phi_to_pf` silently returns `cos phi` (the IEC behaviour), while the
dictionary lookup of state_info.py's `PowerQuadrantState.power_factor`
fails (a `KeyError`, embedded as `none`). -/
theorem invalid_convention_behaviour (name : String) (phi : ℝ)
    (hE : name ≠ EEI) (hI : name ≠ IEC) :
    phi_to_pf phi name = Real.cos phi ∧
    PowerQuadrantState.power_factor name phi = none := by
  constructor
  · simp only [phi_to_pf]
    rw [if_neg hE]
  · rw [PowerQuadrantState.power_factor, pf_sign_conversions, if_neg hE,
      if_neg hI]
    rfl

/-- Witness for the amended C8 at the key XYZ and angle 0. -/
theorem invalid_convention_behaviour_witness :
    phi_to_pf 0 XYZ = Real.cos 0 ∧
    PowerQuadrantState.power_factor XYZ 0 = none :=
  invalid_convention_behaviour XYZ 0 (by decide) (by decide)

/-- Refreshing the dependent fields twice from unchanged independent fields
gives the same state: the second pass recomputes each dependent field from
independent fields the first pass did not touch. -/
theorem refreshedSV_idem (s : PowerStateVariables) :
    refreshedSV (refreshedSV s) = refreshedSV s := rfl

/-- C9: recomputation is idempotent on derived data: two successive
successful refreshes with unchanged independent inputs agree on every
derived state field and on the whole waveform table, while the revision
counter increments again on the second call. -/
theorem refresh_idempotent (m m1 m2 : Model)
    (h1 : m.refresh = Except.ok m1) (h2 : m1.refresh = Except.ok m2) :
    m2.sv.current_rms = m1.sv.current_rms ∧
    m2.sv.current_angle = m1.sv.current_angle ∧
    m2.sv.cos_phi = m1.sv.cos_phi ∧
    m2.sv.power_factor = m1.sv.power_factor ∧
    m2.sv.active_power = m1.sv.active_power ∧
    m2.sv.reactive_power = m1.sv.reactive_power ∧
    m2.wf = m1.wf ∧
    m2.state_count = (m1.state_count + 1) % 255 := by
  obtain ⟨-, rfl⟩ := model_refresh_ok_elim m m1 h1
  obtain ⟨-, rfl⟩ := model_refresh_ok_elim _ m2 h2
  have hidem := refreshedSV_idem m.sv
  refine ⟨?_, ?_, ?_, ?_, ?_, ?_, ?_, rfl⟩ <;> rw [hidem]

/-- Witness for C9 with two refreshes from the initial model. -/
theorem refresh_idempotent_witness :
    ∃ m1 m2, initModel.refresh = Except.ok m1 ∧
      m1.refresh = Except.ok m2 ∧
      (m2.sv.current_rms = m1.sv.current_rms ∧
       m2.sv.current_angle = m1.sv.current_angle ∧
       m2.sv.cos_phi = m1.sv.cos_phi ∧
       m2.sv.power_factor = m1.sv.power_factor ∧
       m2.sv.active_power = m1.sv.active_power ∧
       m2.sv.reactive_power = m1.sv.reactive_power ∧
       m2.wf = m1.wf ∧
       m2.state_count = (m1.state_count + 1) % 255) := by
  have h1 := model_refresh_eq_of_ne initModel one_ne_zero
  have h2 := model_refresh_eq_of_ne
      { state_count := (initModel.state_count + 1) % 0xff
        sv := refreshedSV initModel.sv
        wf := waveTable (refreshedSV initModel.sv).voltage_phasor
                (refreshedSV initModel.sv).current_phasor } one_ne_zero
  exact ⟨_, _, h1, h2, refresh_idempotent initModel _ _ h1 h2⟩

/-- C10: the `Model.waveforms` property getter modifies no model state and
returns a freshly allocated copy of the internal table: the returned
reference is distinct from the model's internal one, its contents equal the
internal table, and any caller mutation through the returned reference
leaves the internal table unchanged. -/
theorem waveforms_getter_returns_copy (m : ModelH) (h : PHeap)
    (hvalid : m.wfRef < h.next) :
    ∃ m2 h2 r, m.waveforms h = (m2, h2, r) ∧
      m2 = m ∧
      r ≠ m.wfRef ∧
      h2.get r = h.get m.wfRef ∧
      h2.get m.wfRef = h.get m.wfRef ∧
      ∀ t, (h2.set r t).get m.wfRef = h.get m.wfRef := by
  refine ⟨_, _, _, rfl, rfl, Nat.ne_of_gt hvalid, ?_, ?_, ?_⟩
  · show (if h.next = h.next then _ else _) = _
    rw [if_pos rfl]
  · show (if m.wfRef = h.next then _ else _) = _
    rw [if_neg (Nat.ne_of_lt hvalid)]
    rfl
  · intro t
    show (if m.wfRef = h.next then _ else
      if m.wfRef = h.next then _ else _) = _
    rw [if_neg (Nat.ne_of_lt hvalid), if_neg (Nat.ne_of_lt hvalid)]
    rfl

/-- Witness for C10 at a one-object heap with the table at reference 0. -/
theorem waveforms_getter_returns_copy_witness :
    ∃ m2 h2 r, modelH0.waveforms heap1 = (m2, h2, r) ∧
      m2 = modelH0 ∧
      r ≠ modelH0.wfRef ∧
      h2.get r = heap1.get modelH0.wfRef ∧
      h2.get modelH0.wfRef = heap1.get modelH0.wfRef ∧
      ∀ t, (h2.set r t).get modelH0.wfRef = heap1.get modelH0.wfRef :=
  waveforms_getter_returns_copy modelH0 heap1 (by decide)

end PQD
